import Mathlib

/-!
Verification of the Google-Jobs scraper (`src/main.js`).

The development shallowly embeds the crawler's request handler, the DETAIL
router handler, the failure handler and the top-level input validation.
The HTML query engine (cheerio selectors), the HTTP transport and the regex
engine are external collaborators: their observable answers on a fetched
document (which selectors matched, the parsed JSON payloads of script tags,
the regex match groups, the parsed `start` parameters of candidate links)
are modelled as fields of the document values handed to the handlers.
All control flow, counting, deduplication, validity checking, strategy
gating, pagination arithmetic and failure classification are translated
directly from the source.
-/

namespace GoogleJobsScraper

/-- Character-list test: does `hay` start with `needle`? -/
def leadsWith : List Char → List Char → Bool
  | _, [] => true
  | [], _ :: _ => false
  | c :: cs, d :: ds => c == d && leadsWith cs ds

/-- Character-list test: does `needle` occur contiguously inside `hay`?
(second argument is the haystack). -/
def containsSeq (needle : List Char) : List Char → Bool
  | [] => needle.isEmpty
  | c :: t => leadsWith (c :: t) needle || containsSeq needle t

/-- JavaScript `hay.includes(needle)` on strings. -/
def strContains (hay needle : String) : Bool :=
  containsSeq needle.toList hay.toList

/-- JavaScript `s.trim()`: strip leading and trailing whitespace. -/
def strTrim (s : String) : String :=
  ⟨((s.data.dropWhile Char.isWhitespace).reverse.dropWhile Char.isWhitespace).reverse⟩

/-- JavaScript `s.toLowerCase()`. -/
def strToLower (s : String) : String :=
  ⟨s.data.map Char.toLower⟩

/-- Parsed JSON values, as produced by `JSON.parse` on a script payload.
`null` also stands for JavaScript `undefined` (an absent field). -/
inductive Json where
  | null
  | bool (b : Bool)
  | num (n : Int)
  | str (s : String)
  | arr (elems : List Json)
  | obj (fields : List (String × Json))

/-- JavaScript truthiness of a parsed JSON value. -/
def Json.truthy : Json → Bool
  | .null => false
  | .bool b => b
  | .num n => n != 0
  | .str s => !s.isEmpty
  | .arr _ => true
  | .obj _ => true

/-- JavaScript `a || b` on JSON values. -/
def jsOr (a b : Json) : Json :=
  if a.truthy then a else b

/-- Field lookup in a parsed JSON object, `undefined` (here `.null`) when
absent. -/
def getField : List (String × Json) → String → Json
  | [], _ => .null
  | (k, v) :: fs, key => if k == key then v else getField fs key

/-- JavaScript property access `j.key` (with optional chaining): any
non-object yields `undefined`. -/
def Json.get : Json → String → Json
  | .obj fs, key => getField fs key
  | _, _ => .null

/-- JavaScript `j === "s"` strict string comparison. -/
def Json.isStrEq : Json → String → Bool
  | .str t, s => t == s
  | _, _ => false

/-- Is the JSON value a string (`typeof j === 'string'`)? -/
def Json.isString : Json → Bool
  | .str _ => true
  | _ => false

/-- A candidate job record, before the run-constant provenance fields are
attached. Field values are JSON values exactly as the source manipulates
them; `id` is the generated dedup key. -/
structure Candidate where
  id : String
  title : Json := .null
  company : Json := .null
  location : Json := .null
  descriptionText : Json := .null
  salary : Json := .null
  jobType : Json := .null
  datePosted : Json := .null
  url : Json := .null

/-- `obj['@type'] === 'JobPosting' || obj.type === 'JobPosting'`. -/
def isJobPostingFields (fs : List (String × Json)) : Bool :=
  (getField fs "@type").isStrEq "JobPosting" || (getField fs "type").isStrEq "JobPosting"

/-- The job object built from a JSON-LD `JobPosting` object
(`extractJobsFromData`, object branch). The fresh random id is assigned
later by `assignIds`. -/
def mkJsonLdJob (fs : List (String × Json)) : Candidate :=
  { id := ""
    title := jsOr (getField fs "title") (getField fs "name")
    company := jsOr ((getField fs "hiringOrganization").get "name")
                    ((getField fs "company").get "name")
    location := jsOr (((getField fs "jobLocation").get "address").get "addressLocality")
                     (getField fs "location")
    descriptionText := getField fs "description"
    salary := jsOr ((getField fs "baseSalary").get "value") (getField fs "salary")
    jobType := getField fs "employmentType"
    datePosted := getField fs "datePosted"
    url := jsOr (getField fs "url") (getField fs "applyUrl") }

mutual

/-- `extractJobsFromData` from the JSON-LD strategy: arrays are traversed
elementwise; an object that declares `@type` (or `type`) `JobPosting` is
turned into a job and kept when its title is truthy; any other object is
searched recursively through all its values. -/
def extractJobsFromData : Json → List Candidate
  | .arr xs => extractJobsFromDataList xs
  | .obj fs =>
    if isJobPostingFields fs then
      let job := mkJsonLdJob fs
      if job.title.truthy then [job] else []
    else extractJobsFromDataFields fs
  | _ => []

/-- Elementwise traversal of a JSON array for `extractJobsFromData`. -/
def extractJobsFromDataList : List Json → List Candidate
  | [] => []
  | x :: xs => extractJobsFromData x ++ extractJobsFromDataList xs

/-- Traversal of an object's values for `extractJobsFromData`. -/
def extractJobsFromDataFields : List (String × Json) → List Candidate
  | [] => []
  | (_, v) :: fs => extractJobsFromData v ++ extractJobsFromDataFields fs

end

/-- The guard of `findJobs` in the app-state strategy:
`obj.title && (obj.company || obj.companyName) && typeof obj.title === 'string'`. -/
def looksLikeJobFields (fs : List (String × Json)) : Bool :=
  (getField fs "title").truthy
    && ((getField fs "company").truthy || (getField fs "companyName").truthy)
    && (getField fs "title").isString

/-- The job object built by `findJobs` from an app-state object. -/
def mkAppStateJob (fs : List (String × Json)) : Candidate :=
  { id := ""
    title := getField fs "title"
    company := jsOr (getField fs "company")
                    (jsOr (getField fs "companyName") (getField fs "organization"))
    location := jsOr (getField fs "location") (getField fs "jobLocation")
    descriptionText := jsOr (getField fs "description") (getField fs "summary")
    salary := jsOr (getField fs "salary") (getField fs "compensation")
    jobType := jsOr (getField fs "jobType") (getField fs "employmentType")
    datePosted := jsOr (getField fs "datePosted") (getField fs "postedDate")
    url := jsOr (getField fs "url") (jsOr (getField fs "link") (getField fs "applyUrl")) }

mutual

/-- `findJobs` from the app-state strategy: collects every object that
looks like a job (title string plus organization-like field) and keeps
searching all nested values. -/
def findJobs : Json → List Candidate
  | .arr xs => findJobsInList xs
  | .obj fs =>
    (if looksLikeJobFields fs then [mkAppStateJob fs] else []) ++ findJobsInFields fs
  | _ => []

/-- Elementwise traversal of a JSON array for `findJobs`. -/
def findJobsInList : List Json → List Candidate
  | [] => []
  | x :: xs => findJobs x ++ findJobsInList xs

/-- Traversal of an object's values for `findJobs`. -/
def findJobsInFields : List (String × Json) → List Candidate
  | [] => []
  | (_, v) :: fs => findJobs v ++ findJobsInFields fs

end

/-- Assign the freshly generated ids (built from `Date.now` and a random
suffix) to the candidates of one document, in discovery order. The id
generator is a parameter, so every theorem holds for arbitrary generated
ids. -/
def assignIds (ids : Nat → String) (cs : List Candidate) : List Candidate :=
  ((List.range cs.length).zip cs).map fun p => { p.2 with id := ids p.1 }

/-- One record pushed to the dataset sink (`Dataset.pushData`). The
run-constant provenance fields (`_source`, `_fetchedAt`, `_scrapedUrl`,
`_searchKeyword`, `_searchLocation`, `_postedDateFilter`) are not
modelled; `extractionMethod` is `none` for DETAIL-page records, which
carry no `_extractionMethod` field. -/
structure JobRecord where
  id : String
  title : Json := .null
  company : Json := .null
  location : Json := .null
  descriptionText : Json := .null
  descriptionHtml : Json := .null
  salary : Json := .null
  jobType : Json := .null
  datePosted : Json := .null
  url : Json := .null
  source : Json := .null
  extractionMethod : Option String := none

/-- Promote a candidate of one of the list-page strategies to the record
that is pushed. -/
def Candidate.toRecord (c : Candidate) (method : String) : JobRecord :=
  { id := c.id
    title := c.title
    company := c.company
    location := c.location
    descriptionText := c.descriptionText
    salary := c.salary
    jobType := c.jobType
    datePosted := c.datePosted
    url := c.url
    extractionMethod := some method }

/-- The mutable run state: `jobsCollected` and `processedIds` (a JS `Set`,
modelled as a duplicate-free insertion-ordered list), plus the sequence of
records handed to `Dataset.pushData`. -/
structure ScrapeState where
  jobsCollected : Nat
  processedIds : List String
  emitted : List JobRecord

/-- The state at `Actor.init`: counter zero, empty ledger, nothing pushed. -/
def initState : ScrapeState :=
  { jobsCollected := 0, processedIds := [], emitted := [] }

/-- `Set.prototype.add`: idempotent insertion. -/
def setAdd (l : List String) (x : String) : List String :=
  if x ∈ l then l else l.concat x

/-- The emission step shared by every push site:
`await Dataset.pushData(finalJob); jobsCollected++; processedIds.add(id)`. -/
def pushRecord (s : ScrapeState) (r : JobRecord) : ScrapeState :=
  { jobsCollected := s.jobsCollected + 1
    processedIds := setAdd s.processedIds r.id
    emitted := s.emitted ++ [r] }

/-- The processing loop run over the JSON-LD, app-state and text-based
candidate lists: stop once the quota is reached, skip already-processed
ids, otherwise push, count and mark. -/
def emitLoop (R : Nat) (method : String) : List Candidate → ScrapeState → ScrapeState
  | [], s => s
  | c :: rest, s =>
    if R ≤ s.jobsCollected then s
    else if c.id ∈ s.processedIds then emitLoop R method rest s
    else emitLoop R method rest (pushRecord s (c.toRecord method))

/-- Selector-match outcomes of the anti-bot `challengeIndicators` on a
fetched document (each field: did that selector match at least one
element?). -/
structure PageSignals where
  gateFormAction : Bool := false
  unusualTraffic : Bool := false
  automatedQueries : Bool := false
  robotText : Bool := false
  captchaText : Bool := false
  captchaId : Bool := false
  gRecaptcha : Bool := false
  verifyText : Bool := false
  suspiciousText : Bool := false
  gateGoogleForm : Bool := false
  blockedText : Bool := false

/-- Does any of the eleven `challengeIndicators` selectors match? -/
def anyChallengeMarker (p : PageSignals) : Bool :=
  p.gateFormAction || p.unusualTraffic || p.automatedQueries || p.robotText
    || p.captchaText || p.captchaId || p.gRecaptcha || p.verifyText
    || p.suspiciousText || p.gateGoogleForm || p.blockedText

/-- The main request handler's challenge classification: any indicator
selector, or a final URL on one of the known gate hosts. -/
def listChallengeDetected (p : PageSignals) (loadedUrl : String) : Bool :=
  anyChallengeMarker p
    || strContains loadedUrl "sorry.google.com"
    || strContains loadedUrl "consent.google.com"

/-- The DETAIL handler's challenge check: only the gate-form selector and
the "unusual traffic" marker are consulted. -/
def detailChallengeDetected (p : PageSignals) : Bool :=
  p.gateFormAction || p.unusualTraffic

/-- One DOM job card surviving the selector cascade. The per-card field
values (`title`, `company`, `location`, `datePosted`, `detailLink`) are the
outcomes of the respective selector cascades run by the query engine;
`id` is the resolved `data-hveid`/`data-ved`/`data-id`/fallback job id,
which is always present. -/
structure DomCard where
  id : String
  title : Option String := none
  company : Option String := none
  location : Option String := none
  datePosted : Option String := none
  detailLink : Option String := none

/-- The final quality check on a DOM-extracted title before a DETAIL
request is enqueued. -/
def isValidJobTitle (t : String) : Bool :=
  let tl := strToLower t
  !(strContains tl "google.com") && !(strContains tl "search")
    && !(strContains tl "next page") && !(strContains tl "previous page")
    && t.length < 200

/-- The seed metadata (`userData.jobData`) carried by an enqueued DETAIL
request. -/
structure SeedJob where
  title : String
  company : String
  location : String
  datePosted : String
  id : String
deriving DecidableEq

/-- The DOM card loop: runs only while `jobsCollected < RESULTS_WANTED`
(the counter is not modified inside the loop, so the guard is all-or-
nothing); skips already-processed ids; enqueues a DETAIL request when a
detail link and a valid title (length above 3, passing the quality check)
are present. The loop never pushes records and never marks ids. -/
def domEnqueue (s : ScrapeState) (R : Nat) (cards : List DomCard) : List SeedJob :=
  if s.jobsCollected < R then
    cards.filterMap fun c =>
      if c.id ∈ s.processedIds then none
      else
        match c.detailLink, c.title with
        | some _, some t =>
          if 3 < t.length && isValidJobTitle t then
            some { title := t
                   company := c.company.getD "Not specified"
                   location := c.location.getD "Not specified"
                   datePosted := c.datePosted.getD "Not specified"
                   id := c.id }
          else none
        | _, _ => none
  else []

/-- Capture groups of one match of a free-text job pattern
(`match[1]`, `match[2]`, `match[3]`). -/
structure TextMatch where
  title : Option String := none
  company : Option String := none
  location : Option String := none

/-- Build the candidate pushed by the text-based fallback from one match. -/
def mkTextJob (id : String) (m : TextMatch) : Candidate :=
  { id := id
    title := match m.title with | some t => .str (strTrim t) | none => .null
    company := match m.company with | some t => .str (strTrim t) | none => .null
    location := match m.location with | some t => .str (strTrim t) | none => .null }

/-- The inner `while` loop of the text-based fallback over the successive
matches of one pattern: the guard `textBasedJobs.length < 10` is
re-checked before every match is processed, and a match is kept only when
its (trimmed) title group exists with length strictly between 3 and 100. -/
def textLoop (ids : Nat → String) : List TextMatch → List Candidate → List Candidate
  | [], acc => acc
  | m :: ms, acc =>
    if acc.length < 10 then
      match m.title with
      | some t =>
        if 3 < (strTrim t).length && (strTrim t).length < 100 then
          textLoop ids ms (acc.concat (mkTextJob (ids acc.length) m))
        else textLoop ids ms acc
      | none => textLoop ids ms acc
    else acc

/-- The text-based fallback over all three job patterns of one document:
the accumulated candidate list (and with it the bound of 10) is shared
across the patterns. -/
def collectTextJobs (ids : Nat → String) (pats : List (List TextMatch)) : List Candidate :=
  pats.foldl (fun acc ms => textLoop ids ms acc) []

/-- Scan of the pagination selectors: each entry is the parsed `start`
parameter of that selector's link (`none`: no link, no href, or URL parse
failure). The first link whose target offset is strictly greater than the
current offset is accepted. -/
def findNextPageStart (currentStart : Int) : List (Option Int) → Option Int
  | [] => none
  | some n :: rest => if currentStart < n then some n else findNextPageStart currentStart rest
  | none :: rest => findNextPageStart currentStart rest

/-- Full pagination resolution: explicit next link first, otherwise the
manually constructed fallback `currentStart + 10`, bounded by the absolute
pagination limit of 1000. Returns the start offset of the enqueued next
LIST request. -/
def resolvePagination (currentStart : Int) (links : List (Option Int)) : Option Int :=
  match findNextPageStart currentStart links with
  | some n => some n
  | none =>
    if 0 ≤ currentStart then
      if currentStart + 10 ≤ 1000 then some (currentStart + 10) else none
    else none

/-- A fetched listing document, as observed through the external query
engine: challenge-selector outcomes, the final URL, the successfully
parsed JSON-LD script payloads, the successfully parsed app-state payloads
(over all inline scripts and all state patterns), the DOM job cards that
survive the selector cascade, the match groups of the three free-text
patterns, and the parsed `start` targets of the pagination selectors.
`jsonLdIds`, `appStateIds`, `textIds` are the fresh-id generators for the
three emitting strategies. -/
structure ListDoc where
  signals : PageSignals := {}
  loadedUrl : String := ""
  jsonLdPayloads : List Json := []
  appStatePayloads : List Json := []
  domCards : List DomCard := []
  textPatternMatches : List (List TextMatch) := []
  paginationLinks : List (Option Int) := []
  jsonLdIds : Nat → String := fun n => "jsonld_" ++ toString n
  appStateIds : Nat → String := fun n => "appstate_" ++ toString n
  textIds : Nat → String := fun n => "text_" ++ toString n

/-- The request metadata consulted by the main handler: `userData.label`,
`userData.isInitialRequest`, `userData.urlVariant` and the `start`
parameter parsed from the loaded URL. -/
structure ReqInfo where
  label : String := "LIST"
  isInitialRequest : Bool := false
  urlVariant : Nat := 1
  currentStart : Int := 0

/-- `jobsFromJsonLd` of one document: JSON-LD extraction over every parsed
script payload, with fresh ids assigned in discovery order. -/
def jobsFromJsonLd (d : ListDoc) : List Candidate :=
  assignIds d.jsonLdIds (d.jsonLdPayloads.flatMap extractJobsFromData)

/-- `jobsFromAppState` of one document: `findJobs` over every parsed
app-state payload, with fresh ids assigned in discovery order. -/
def jobsFromAppState (d : ListDoc) : List Candidate :=
  assignIds d.appStateIds (d.appStatePayloads.flatMap findJobs)

/-- Everything the main request handler does to one document. -/
structure ListOutcome where
  state : ScrapeState
  challenged : Bool
  detailRequests : List SeedJob
  nextPageStart : Option Int
  ranTextStage : Bool
  triedAltVariants : Bool

/-- The main `requestHandler` on a LIST document: quota short-circuit,
challenge classification (which aborts with no extraction), then the
JSON-LD, app-state, DOM and (gated) text-based strategies in order,
followed by pagination resolution and, failing that, the alternative
URL-variant seeding. -/
def runListTask (R : Nat) (d : ListDoc) (req : ReqInfo) (s : ScrapeState) : ListOutcome :=
  if R ≤ s.jobsCollected then
    { state := s, challenged := false, detailRequests := [], nextPageStart := none
      ranTextStage := false, triedAltVariants := false }
  else if listChallengeDetected d.signals d.loadedUrl then
    { state := s, challenged := true, detailRequests := [], nextPageStart := none
      ranTextStage := false, triedAltVariants := false }
  else
    let ld := jobsFromJsonLd d
    let s1 := emitLoop R "json-ld" ld s
    let app := jobsFromAppState d
    let s2 := emitLoop R "app-state" app s1
    let reqs := domEnqueue s2 R d.domCards
    let runText := s2.jobsCollected < R && ld.isEmpty && app.isEmpty && d.domCards.isEmpty
    let s3 := if runText then
        emitLoop R "text-parsing" (collectTextJobs d.textIds d.textPatternMatches) s2
      else s2
    let doPage := req.label != "DETAIL" && s3.jobsCollected < R
    let np := if doPage then resolvePagination req.currentStart d.paginationLinks else none
    let alt := doPage && np.isNone && req.isInitialRequest
                 && s3.jobsCollected < 5 && req.urlVariant == 1
    { state := s3, challenged := false, detailRequests := reqs, nextPageStart := np
      ranTextStage := runText, triedAltVariants := alt }

/-- A fetched DETAIL document: the challenge-selector outcomes, the trimmed
text of the first element matched by each title selector, the normalized
text of each company selector, the outcomes of the description cascade,
the first salary-regex match over the body text, the body text itself
(scanned for job-type keywords), and the apply-URL/source extraction
outcome. -/
structure DetailDoc where
  signals : PageSignals := {}
  titleTexts : List String := []
  companyTexts : List String := []
  descriptionHtml : String := ""
  descriptionText : String := ""
  salaryMatch : Option String := none
  bodyText : String := ""
  sourceFound : Option String := none
  urlFound : Option String := none

/-- Title merge on a DETAIL page: the first selector whose trimmed text is
longer than 5 characters wins, otherwise the seed title is kept. -/
def detailTitlePick (seed : SeedJob) (texts : List String) : String :=
  match (texts.map strTrim).find? (fun t => 5 < t.length) with
  | some t => t
  | none => seed.title

/-- Company merge on a DETAIL page: the first selector text with length
strictly between 1 and 100 wins, otherwise the seed company is kept. -/
def detailCompanyPick (seed : SeedJob) (texts : List String) : String :=
  match texts.find? (fun t => 1 < t.length && t.length < 100) with
  | some t => t
  | none => seed.company

/-- The keyword scan for the employment type over the page body. -/
def jobTypeKeywords : List String :=
  ["full-time", "part-time", "contract", "temporary", "internship", "freelance", "remote"]

/-- `jobType` extraction: the first keyword contained in the lowercased
body text. -/
def extractJobType (bodyText : String) : Option String :=
  jobTypeKeywords.find? fun k => strContains (strToLower bodyText) k

/-- JavaScript `x || null` on an optional string, as a JSON field value. -/
def optStr : Option String → Json
  | some t => .str t
  | none => .null

/-- The merged record assembled at the end of the DETAIL handler
(`finalJob`), given the already-picked final title and company. -/
def detailRecord (d : DetailDoc) (seed : SeedJob) (ft fc : String) : JobRecord :=
  { id := seed.id
    title := .str ft
    company := .str fc
    location := .str seed.location
    datePosted := .str seed.datePosted
    descriptionText := .str d.descriptionText
    descriptionHtml := .str d.descriptionHtml
    salary := optStr d.salaryMatch
    jobType := optStr (extractJobType d.bodyText)
    source := .str (d.sourceFound.getD "google.com")
    url := optStr d.urlFound
    extractionMethod := none }

/-- The DETAIL router handler: quota short-circuit, dedup-ledger
short-circuit, the reduced challenge check, then the field merges and the
final push guarded by the title length check. -/
def runDetailTask (R : Nat) (d : DetailDoc) (seed : SeedJob) (s : ScrapeState) : ScrapeState :=
  if R ≤ s.jobsCollected then s
  else if seed.id ∈ s.processedIds then s
  else if detailChallengeDetected d.signals then s
  else
    let dt := detailTitlePick seed d.titleTexts
    let ft := if dt.isEmpty then seed.title else dt
    let dc := detailCompanyPick seed d.companyTexts
    let fc := if dc.isEmpty then seed.company else dc
    if 3 < ft.length then pushRecord s (detailRecord d seed ft fc) else s

/-- One dequeued task of a run, together with the document the transport
fetched for it. -/
inductive FetchTask where
  | list (d : ListDoc) (req : ReqInfo)
  | detail (d : DetailDoc) (seed : SeedJob)

/-- The state transformation of one handler invocation. -/
def runTask (R : Nat) (t : FetchTask) (s : ScrapeState) : ScrapeState :=
  match t with
  | .list d req => (runListTask R d req s).state
  | .detail d seed => runDetailTask R d seed s

/-- A whole run: the handlers fire one task at a time (the crawl loop,
with the scheduling of the worker pool left to the external crawler). -/
def runTasks (R : Nat) (ts : List FetchTask) (s : ScrapeState) : ScrapeState :=
  ts.foldl (fun s t => runTask R t s) s

/-- The failure classes distinguished by `failedRequestHandler`. -/
inductive FailClass where
  | challenge
  | timeout
  | rateLimited
  | serverError
  | connectionError
  | other
deriving DecidableEq

/-- The if/else chain of `failedRequestHandler` over the error message. -/
def classifyFailure (msg : String) : FailClass :=
  if strContains msg "CHALLENGE_DETECTED" then .challenge
  else if strContains msg "timeout" || strContains msg "ETIMEDOUT" then .timeout
  else if strContains msg "403" || strContains msg "blocked" || strContains msg "429" then .rateLimited
  else if strContains msg "500" || strContains msg "502" || strContains msg "503" then .serverError
  else if strContains msg "ECONNRESET" || strContains msg "ENOTFOUND" then .connectionError
  else .other

/-- The delay (in milliseconds) taken before the retry, as a function of
the class and the `Math.random()` draw `r` of that branch. -/
def failureDelayMs (c : FailClass) (r : ℚ) : ℚ :=
  match c with
  | .challenge => 10000 + r * 10000
  | .timeout => 3000 + r * 3000
  | .rateLimited => 15000 + r * 15000
  | .serverError => 5000 + r * 5000
  | .connectionError => 2000 + r * 3000
  | .other => 0

/-- Which failure classes retire the session (`session.retire()`). -/
def failureRetires : FailClass → Bool
  | .challenge => true
  | .rateLimited => true
  | _ => false

/-- The actor input after destructuring with its defaults.
`results_wanted` is `none` when `+results_wanted` is not a finite number. -/
structure ActorInput where
  keyword : String := ""
  location : String := ""
  posted_date : String := "anytime"
  results_wanted : Option Int := some 100
  maxRequestRetries : Nat := 3
  requestDelay : Nat := 2000

/-- `RESULTS_WANTED`: `Math.max(1, +raw)` when finite, otherwise
`Number.MAX_SAFE_INTEGER`. -/
def computeResultsWanted (raw : Option Int) : Nat :=
  match raw with
  | some n => (max 1 n).toNat
  | none => 9007199254740991

/-- The top level of `main.js`: the keyword guard runs before the crawler
is constructed or run, so an empty keyword aborts the whole run with the
input error and no task is ever processed. -/
def runScraper (inp : ActorInput) (ts : List FetchTask) : Except String ScrapeState :=
  if inp.keyword = "" then .error "Input \"keyword\" is required."
  else .ok (runTasks (computeResultsWanted inp.results_wanted) ts initState)

/-! ## Invariants of the run state -/

/-- The run-state invariant: the counter respects the quota, the counter
equals the ledger size, the ledger is duplicate-free, the emitted ids are
pairwise distinct, and every emitted id has been marked in the ledger. -/
def StateInv (R : Nat) (s : ScrapeState) : Prop :=
  s.jobsCollected ≤ R
    ∧ s.jobsCollected = s.processedIds.length
    ∧ s.processedIds.Nodup
    ∧ (s.emitted.map JobRecord.id).Nodup
    ∧ ∀ r ∈ s.emitted, r.id ∈ s.processedIds

theorem mem_setAdd_self (l : List String) (x : String) : x ∈ setAdd l x := by
  unfold setAdd
  split
  · assumption
  · simp [List.concat_eq_append]

theorem mem_setAdd_of_mem {l : List String} {y : String} (x : String) (h : y ∈ l) :
    y ∈ setAdd l x := by
  unfold setAdd
  split
  · exact h
  · simp only [List.concat_eq_append, List.mem_append]
    exact Or.inl h

theorem setAdd_length_of_not_mem {l : List String} {x : String} (h : x ∉ l) :
    (setAdd l x).length = l.length + 1 := by
  simp [setAdd, h, List.concat_eq_append]

theorem setAdd_nodup {l : List String} {x : String} (h : l.Nodup) :
    (setAdd l x).Nodup := by
  unfold setAdd
  split
  · exact h
  · next hx => simp [List.concat_eq_append, List.nodup_append, h, hx]

theorem pushRecord_inv {R : Nat} {s : ScrapeState} {r : JobRecord} (hs : StateInv R s)
    (hlt : s.jobsCollected < R) (hfresh : r.id ∉ s.processedIds) :
    StateInv R (pushRecord s r) := by
  obtain ⟨h1, h2, h3, h4, h5⟩ := hs
  refine ⟨hlt, ?_, ?_, ?_, ?_⟩
  · simp [pushRecord, setAdd_length_of_not_mem hfresh, h2]
  · exact setAdd_nodup h3
  · have hr : r.id ∉ s.emitted.map JobRecord.id := by
      intro hmem
      simp only [List.mem_map] at hmem
      obtain ⟨r', hr', he⟩ := hmem
      exact hfresh (he ▸ h5 r' hr')
    simp [pushRecord, List.nodup_append, h4, hr]
  · intro r' hr'
    simp only [pushRecord, List.mem_append, List.mem_singleton] at hr'
    rcases hr' with h | h
    · exact mem_setAdd_of_mem _ (h5 r' h)
    · subst h; exact mem_setAdd_self _ _

theorem emitLoop_inv {R : Nat} (m : String) (cs : List Candidate) {s : ScrapeState}
    (hs : StateInv R s) : StateInv R (emitLoop R m cs s) := by
  induction cs generalizing s with
  | nil => exact hs
  | cons c rest ih =>
    rw [emitLoop]
    split
    · exact hs
    · next h1 =>
      split
      · exact ih hs
      · next h2 => exact ih (pushRecord_inv hs (Nat.lt_of_not_le h1) h2)

theorem runListTask_inv {R : Nat} (d : ListDoc) (req : ReqInfo) {s : ScrapeState}
    (hs : StateInv R s) : StateInv R (runListTask R d req s).state := by
  rw [runListTask]
  split
  · exact hs
  · split
    · exact hs
    · simp only
      split
      · exact emitLoop_inv _ _ (emitLoop_inv _ _ (emitLoop_inv _ _ hs))
      · exact emitLoop_inv _ _ (emitLoop_inv _ _ hs)

theorem runDetailTask_inv {R : Nat} (d : DetailDoc) (seed : SeedJob) {s : ScrapeState}
    (hs : StateInv R s) : StateInv R (runDetailTask R d seed s) := by
  rw [runDetailTask]
  split
  · exact hs
  · next h1 =>
    split
    · exact hs
    · next h2 =>
      split
      · exact hs
      · have hpush : ∀ ft fc : String,
            StateInv R (if 3 < ft.length then pushRecord s (detailRecord d seed ft fc) else s) := by
          intro ft fc
          split
          · exact pushRecord_inv hs (Nat.lt_of_not_le h1) h2
          · exact hs
        exact hpush _ _

theorem runTask_inv {R : Nat} (t : FetchTask) {s : ScrapeState} (hs : StateInv R s) :
    StateInv R (runTask R t s) := by
  cases t with
  | list d req => exact runListTask_inv d req hs
  | detail d seed => exact runDetailTask_inv d seed hs

theorem runTasks_inv {R : Nat} (ts : List FetchTask) {s : ScrapeState} (hs : StateInv R s) :
    StateInv R (runTasks R ts s) := by
  induction ts generalizing s with
  | nil => exact hs
  | cons t ts ih => exact ih (runTask_inv t hs)

theorem initState_inv (R : Nat) : StateInv R initState :=
  ⟨Nat.zero_le _, rfl, List.nodup_nil, List.nodup_nil, by intro r hr; simp [initState] at hr⟩

/-! ## Claim theorems -/

/-- C1: in every run, over every sequence of fetched documents, the number
of emitted records (`jobsCollected`, the count of `Dataset.pushData`
calls) never exceeds the configured quota `RESULTS_WANTED`: the quota is
re-checked before every push, so after any initial segment of the run the
counter is at most the quota. -/
theorem quota_never_exceeded (R : Nat) (ts : List FetchTask) :
    (runTasks R ts initState).jobsCollected ≤ R :=
  (runTasks_inv ts (initState_inv R)).1

/-- C2: for every externalId value and every sequence of fetched documents
(including documents whose extraction produces the same externalId), at
most one emitted record carries that id: the emitted ids are pairwise
distinct, because every emission path checks `processedIds.has(id)` before
pushing and marks the id at the moment of emission. -/
theorem dedup_at_most_once (R : Nat) (ts : List FetchTask) :
    ((runTasks R ts initState).emitted.map JobRecord.id).Nodup :=
  (runTasks_inv ts (initState_inv R)).2.2.2.1

/-- C10: at every point in a run the emitted-record counter equals the
size of the dedup ledger (`jobsCollected = |processedIds|`): every
emission adds exactly one fresh id and increments the counter in the same
step. Moreover ids are marked only at emission, never when a DETAIL task
is merely enqueued: a LIST document with no JSON-LD and no app-state
payloads but with DOM cards leaves the state completely unchanged, no
matter how many DETAIL requests it enqueues. -/
theorem counter_matches_ledger :
    (∀ (R : Nat) (ts : List FetchTask),
        (runTasks R ts initState).jobsCollected = (runTasks R ts initState).processedIds.length)
    ∧ ∀ (R : Nat) (d : ListDoc) (req : ReqInfo) (s : ScrapeState),
        d.jsonLdPayloads = [] → d.appStatePayloads = [] → d.domCards ≠ [] →
        (runListTask R d req s).state = s := by
  constructor
  · intro R ts
    exact (runTasks_inv ts (initState_inv R)).2.1
  · intro R d req s h1 h2 h3
    have hld : jobsFromJsonLd d = [] := by simp [jobsFromJsonLd, h1, assignIds]
    have hap : jobsFromAppState d = [] := by simp [jobsFromAppState, h2, assignIds]
    obtain ⟨c, cards, hc⟩ : ∃ c cards, d.domCards = c :: cards := by
      cases hdc : d.domCards with
      | nil => exact absurd hdc h3
      | cons c cards => exact ⟨c, cards, rfl⟩
    rw [runListTask]
    split
    · rfl
    · split
      · rfl
      · simp [hld, hap, hc, emitLoop]

/-- Witness for C10 at concrete inputs: the empty run, and a LIST document
that only enqueues one DETAIL request from a DOM card. -/
theorem counter_matches_ledger_witness :
    (runTasks 7 [] initState).jobsCollected = (runTasks 7 [] initState).processedIds.length
    ∧ (runListTask 7 { domCards := [{ id := "card0" }] } {} initState).state = initState :=
  ⟨counter_matches_ledger.1 7 [],
   counter_matches_ledger.2 7 { domCards := [{ id := "card0" }] } {} initState rfl rfl
     (List.cons_ne_nil _ _)⟩

theorem findNextPageStart_gt {cur n : Int} :
    ∀ links : List (Option Int), findNextPageStart cur links = some n → cur < n
  | [] => fun h => by simp [findNextPageStart] at h
  | none :: rest => fun h =>
    findNextPageStart_gt rest (by rwa [findNextPageStart] at h)
  | some m :: rest => fun h => by
    rw [findNextPageStart] at h
    split at h
    · next hlt => cases h; exact hlt
    · exact findNextPageStart_gt rest h

/-- C5: for every current offset and every fetched LIST document, the
pagination resolution never yields a start offset less than or equal to
the current one: an explicit next-page link is accepted only when its
`start` is strictly greater, and the synthesized fallback offset equals
`current + 10`. -/
theorem pagination_monotonic :
    (∀ (cur : Int) (links : List (Option Int)) (n : Int),
        resolvePagination cur links = some n → cur < n)
    ∧ ∀ (cur : Int) (links : List (Option Int)),
        findNextPageStart cur links = none → 0 ≤ cur → cur + 10 ≤ 1000 →
        resolvePagination cur links = some (cur + 10) := by
  constructor
  · intro cur links n h
    rw [resolvePagination] at h
    cases hf : findNextPageStart cur links with
    | some m =>
      simp only [hf, Option.some.injEq] at h
      exact h ▸ findNextPageStart_gt links hf
    | none =>
      simp only [hf] at h
      by_cases h0 : 0 ≤ cur
      · rw [if_pos h0] at h
        by_cases h10 : cur + 10 ≤ 1000
        · rw [if_pos h10] at h
          cases h
          omega
        · rw [if_neg h10] at h
          cases h
      · rw [if_neg h0] at h
        cases h
  · intro cur links hf h0 h10
    rw [resolvePagination]
    simp only [hf]
    rw [if_pos h0, if_pos h10]

/-- Witness for C5: a stale link with a smaller offset is skipped, a later
link with a larger offset is accepted; with no usable link the fallback is
`current + 10`. -/
theorem pagination_monotonic_witness :
    resolvePagination 20 [some 15, none, some 30] = some 30 ∧ (20 : Int) < 30
    ∧ resolvePagination 40 [some 40] = some 50 :=
  ⟨by decide,
   pagination_monotonic.1 20 [some 15, none, some 30] 30 (by decide),
   pagination_monotonic.2 40 [some 40] (by decide) (by decide) (by decide)⟩

theorem textLoop_length_le (ids : Nat → String) :
    ∀ (ms : List TextMatch) (acc : List Candidate),
      (textLoop ids ms acc).length ≤ max acc.length 10 := by
  intro ms
  induction ms with
  | nil => intro acc; simp [textLoop]
  | cons m rest ih =>
    intro acc
    rw [textLoop]
    split
    · next hlt =>
      cases hm : m.title with
      | none => exact (ih acc).trans (by omega)
      | some t =>
        dsimp only
        have h1 := ih (acc.concat (mkTextJob (ids acc.length) m))
        have h2 := ih acc
        simp only [List.length_concat] at h1
        by_cases hc : ((3 < (strTrim t).length && (strTrim t).length < 100 : Bool) = true)
        · rw [if_pos hc]; omega
        · rw [if_neg hc]; omega
    · omega

theorem collectTextJobs_length_le (ids : Nat → String) (pats : List (List TextMatch)) :
    (collectTextJobs ids pats).length ≤ 10 := by
  unfold collectTextJobs
  suffices h : ∀ (ps : List (List TextMatch)) (acc : List Candidate), acc.length ≤ 10 →
      (ps.foldl (fun acc ms => textLoop ids ms acc) acc).length ≤ 10 by
    exact h pats [] (by simp)
  intro ps
  induction ps with
  | nil => intro acc h; simpa using h
  | cons p ps ih =>
    intro acc h
    rw [List.foldl_cons]
    refine ih _ ((textLoop_length_le ids p acc).trans ?_)
    omega

/-- C6: the free-text regex strategy runs only when the structured-data,
embedded-state and DOM-heuristic strategies all produced zero candidates
for the document, and it produces at most 10 candidate records per
document across all its patterns. -/
theorem freetext_gating_and_bound :
    (∀ (R : Nat) (d : ListDoc) (req : ReqInfo) (s : ScrapeState),
        (runListTask R d req s).ranTextStage = true →
        jobsFromJsonLd d = [] ∧ jobsFromAppState d = [] ∧ d.domCards = [])
    ∧ ∀ (ids : Nat → String) (pats : List (List TextMatch)),
        (collectTextJobs ids pats).length ≤ 10 := by
  constructor
  · intro R d req s h
    rw [runListTask] at h
    split at h
    · exact absurd h (by simp)
    · split at h
      · exact absurd h (by simp)
      · simp only [Bool.and_eq_true, decide_eq_true_eq, List.isEmpty_iff] at h
        exact ⟨h.1.1.2, h.1.2, h.2⟩
  · exact fun ids pats => collectTextJobs_length_le ids pats

/-- Witness for C6: a document with no structured data, no app state and
no DOM cards does reach the text stage, and the text extraction on a
concrete match list stays within the bound. -/
theorem freetext_gating_and_bound_witness :
    (runListTask 5 {} {} initState).ranTextStage = true
    ∧ (jobsFromJsonLd {} = [] ∧ jobsFromAppState {} = [] ∧ ({} : ListDoc).domCards = [])
    ∧ (collectTextJobs (fun n => "t" ++ toString n)
        [[{ title := some "Registered Nurse" }]]).length ≤ 10 :=
  ⟨rfl,
   freetext_gating_and_bound.1 5 {} {} initState rfl,
   freetext_gating_and_bound.2 (fun n => "t" ++ toString n) [[{ title := some "Registered Nurse" }]]⟩

/-- C8: the failure classification determines the delay and rotation
policy exactly as specified: `CHALLENGE_DETECTED` waits 10-20s and
retires the session; 403/429/blocked waits 15-30s and retires;
500/502/503 waits 5-10s without retiring; timeouts and connection errors
wait within the short 2-6s range without retiring. `r` is the
`Math.random()` draw of the branch taken. -/
theorem failure_policy (r : ℚ) (h0 : 0 ≤ r) (h1 : r < 1) :
    (failureRetires .challenge = true
      ∧ 10000 ≤ failureDelayMs .challenge r ∧ failureDelayMs .challenge r ≤ 20000)
    ∧ (failureRetires .rateLimited = true
      ∧ 15000 ≤ failureDelayMs .rateLimited r ∧ failureDelayMs .rateLimited r ≤ 30000)
    ∧ (failureRetires .serverError = false
      ∧ 5000 ≤ failureDelayMs .serverError r ∧ failureDelayMs .serverError r ≤ 10000)
    ∧ (failureRetires .timeout = false
      ∧ 2000 ≤ failureDelayMs .timeout r ∧ failureDelayMs .timeout r ≤ 6000)
    ∧ (failureRetires .connectionError = false
      ∧ 2000 ≤ failureDelayMs .connectionError r ∧ failureDelayMs .connectionError r ≤ 6000) := by
  have hr : r ≤ 1 := le_of_lt h1
  refine ⟨⟨rfl, ?_, ?_⟩, ⟨rfl, ?_, ?_⟩, ⟨rfl, ?_, ?_⟩, ⟨rfl, ?_, ?_⟩, ⟨rfl, ?_, ?_⟩⟩ <;>
    simp only [failureDelayMs] <;> nlinarith

/-- Witness for C8 at the concrete draw `r = 1/2`. -/
theorem failure_policy_witness :
    (0 : ℚ) ≤ 1/2 ∧ (1/2 : ℚ) < 1
    ∧ 10000 ≤ failureDelayMs .challenge (1/2) ∧ failureDelayMs .challenge (1/2) ≤ 20000
    ∧ failureRetires .timeout = false :=
  ⟨by norm_num, by norm_num,
   (failure_policy (1/2) (by norm_num) (by norm_num)).1.2.1,
   (failure_policy (1/2) (by norm_num) (by norm_num)).1.2.2,
   (failure_policy (1/2) (by norm_num) (by norm_num)).2.2.2.1.1⟩

/-- C9: a configuration whose required keyword is missing or empty makes
the run fail with the input error before the crawl loop starts: the
scraper returns the error and no task is processed, no request
dispatched, no record emitted. -/
theorem missing_keyword_rejected (inp : ActorInput) (ts : List FetchTask)
    (h : inp.keyword = "") :
    runScraper inp ts = .error "Input \"keyword\" is required." := by
  simp [runScraper, h]

/-- Witness for C9: the all-defaults input (whose keyword is the empty
string) is rejected even with a pending task. -/
theorem missing_keyword_rejected_witness :
    ({} : ActorInput).keyword = ""
    ∧ runScraper {} [FetchTask.list {} {}] = .error "Input \"keyword\" is required." :=
  ⟨rfl, missing_keyword_rejected {} [FetchTask.list {} {}] rfl⟩

/-- The concrete DETAIL document for the C4 counterexample: the page
matches the `captcha` challenge indicator (a marker that classifies a
LIST page as CHALLENGE), but carries neither of the two markers the
DETAIL handler checks. -/
def captchaDetailDoc : DetailDoc :=
  { signals := { captchaText := true }
    titleTexts := ["Senior Staff Nurse - ICU"] }

/-- The seed metadata of the DETAIL task used in the C4 counterexample. -/
def captchaSeed : SeedJob :=
  { title := "Nurse", company := "General Hospital", location := "Austin, TX"
    datePosted := "2 days ago", id := "job-c4" }

/-- C4 counterexample: a DETAIL document carrying the `captcha` challenge
marker is not classified as CHALLENGE by the DETAIL handler — extraction
runs and a record is emitted from the challenge page, refuting the claim
for DETAIL tasks. -/
theorem challenge_markers_counterexample :
    anyChallengeMarker captchaDetailDoc.signals = true
    ∧ detailChallengeDetected captchaDetailDoc.signals = false
    ∧ (runDetailTask 10 captchaDetailDoc captchaSeed initState).emitted.length = 1 :=
  ⟨rfl, rfl, rfl⟩

/-- C4 amended: on LIST tasks, any single challenge marker (or a gate-host
final URL) classifies the document as CHALLENGE and no extraction strategy
runs — the state is unchanged and nothing is enqueued; on DETAIL tasks
only the gate-form selector and "unusual traffic" markers are checked, and a
DETAIL document matching one of those two is skipped without extraction
(other markers such as `captcha` do not prevent extraction on DETAIL
pages, per the counterexample). -/
theorem challenge_markers_amended :
    (∀ (R : Nat) (d : ListDoc) (req : ReqInfo) (s : ScrapeState),
        listChallengeDetected d.signals d.loadedUrl = true → s.jobsCollected < R →
        runListTask R d req s =
          { state := s, challenged := true, detailRequests := [], nextPageStart := none
            ranTextStage := false, triedAltVariants := false })
    ∧ ∀ (R : Nat) (d : DetailDoc) (seed : SeedJob) (s : ScrapeState),
        detailChallengeDetected d.signals = true → runDetailTask R d seed s = s := by
  constructor
  · intro R d req s h hlt
    rw [runListTask, if_neg (by omega : ¬ R ≤ s.jobsCollected), if_pos h]
  · intro R d seed s h
    rw [runDetailTask]
    by_cases h1 : R ≤ s.jobsCollected
    · rw [if_pos h1]
    · rw [if_neg h1]
      by_cases h2 : seed.id ∈ s.processedIds
      · rw [if_pos h2]
      · rw [if_neg h2, if_pos h]

/-- Witness for the amended C4 at concrete inputs: a LIST page matching
the `robot` marker is challenge-classified with no extraction, and a
DETAIL page matching the "unusual traffic" marker is skipped. -/
theorem challenge_markers_amended_witness :
    listChallengeDetected { robotText := true } "" = true
    ∧ runListTask 10 { signals := { robotText := true } } {} initState =
        { state := initState, challenged := true, detailRequests := [], nextPageStart := none
          ranTextStage := false, triedAltVariants := false }
    ∧ runDetailTask 10 { signals := { unusualTraffic := true } }
        { title := "Cook", company := "Diner", location := "Reno", datePosted := "today"
          id := "job-w4" } initState = initState :=
  ⟨rfl,
   challenge_markers_amended.1 10 { signals := { robotText := true } } {} initState rfl
     (by decide),
   challenge_markers_amended.2 10 { signals := { unusualTraffic := true } }
     { title := "Cook", company := "Diner", location := "Reno", datePosted := "today"
       id := "job-w4" } initState rfl⟩

/-- A LIST document carrying both a structured-data (JSON-LD) payload
whose job posting has title `t₁` and an embedded-state payload whose job
has the different title `t₂`. -/
def twoStrategyDoc (t₁ t₂ : String) : ListDoc :=
  { jsonLdPayloads := [Json.obj [("@type", Json.str "JobPosting"), ("title", Json.str t₁)]]
    appStatePayloads := [Json.obj [("title", Json.str t₂), ("company", Json.str "Acme")]] }

/-- C3 counterexample: on a document carrying both a structured-data
payload and an embedded-state payload with a different title, the
structured-data strategy produces a valid candidate, yet the embedded-
state strategy's candidate is emitted as well — the first strategy is not
the only one whose candidates are used, and both titles are emitted. -/
theorem strategy_order_counterexample :
    ((runListTask 10 (twoStrategyDoc "Staff Engineer" "Head Chef") {} initState).state.emitted.map
        (fun r => r.extractionMethod) = [some "json-ld", some "app-state"])
    ∧ ((runListTask 10 (twoStrategyDoc "Staff Engineer" "Head Chef") {} initState).state.emitted.map
        JobRecord.title = [Json.str "Staff Engineer", Json.str "Head Chef"])
    ∧ ¬ ∀ r ∈ (runListTask 10 (twoStrategyDoc "Staff Engineer" "Head Chef") {} initState).state.emitted,
        r.extractionMethod = some "json-ld" := by
  refine ⟨rfl, rfl, ?_⟩
  intro hall
  have hm : some "app-state" ∈
      ((runListTask 10 (twoStrategyDoc "Staff Engineer" "Head Chef") {} initState).state.emitted.map
        (fun r => r.extractionMethod)) := by decide
  obtain ⟨r, hr, hre⟩ := List.mem_map.mp hm
  have h := hall r hr
  rw [h] at hre
  simp at hre

/-- C3 amended: the strategies are tried in the fixed order structured-
data, embedded-state, DOM-heuristic, free-text, but the first strategy to
produce a valid candidate does not win: structured-data and embedded-state
candidates are both emitted from the same document (and DOM candidates are
still enqueued); only the free-text strategy is gated on the earlier three
producing zero candidates. In particular, on a document carrying both a
structured-data payload and an embedded-state payload with a different
title, both titles are emitted — in strategy order. -/
theorem strategy_order_amended (t₁ t₂ : String) (R : Nat)
    (h₁ : t₁ ≠ "") (h₂ : t₂ ≠ "") (hR : 2 ≤ R) :
    ((runListTask R (twoStrategyDoc t₁ t₂) {} initState).state.emitted.map
        (fun r => (r.extractionMethod, r.title))
      = [(some "json-ld", Json.str t₁), (some "app-state", Json.str t₂)])
    ∧ (runListTask R (twoStrategyDoc t₁ t₂) {} initState).ranTextStage = false := by
  have hne₁ : t₁.isEmpty = false := by
    cases he : t₁.isEmpty
    · rfl
    · exact absurd ((String.isEmpty_iff t₁).mp he) h₁
  have hne₂ : t₂.isEmpty = false := by
    cases he : t₂.isEmpty
    · rfl
    · exact absurd ((String.isEmpty_iff t₂).mp he) h₂
  have hld : jobsFromJsonLd (twoStrategyDoc t₁ t₂) = [{ id := "jsonld_0", title := Json.str t₁ }] := by
    simp [jobsFromJsonLd, twoStrategyDoc, extractJobsFromData, isJobPostingFields,
          getField, Json.isStrEq, mkJsonLdJob, jsOr, Json.truthy, Json.get, hne₁, assignIds,
          List.range_succ, (show ("jsonld_" ++ toString (0 : Nat)) = "jsonld_0" from rfl)]
  have hap : jobsFromAppState (twoStrategyDoc t₁ t₂) =
      [{ id := "appstate_0", title := Json.str t₂, company := Json.str "Acme" }] := by
    simp [jobsFromAppState, twoStrategyDoc, findJobs, findJobsInFields,
          looksLikeJobFields, getField, mkAppStateJob, jsOr, Json.truthy, Json.isString, hne₂,
          assignIds, List.range_succ,
          (show ("Acme" : String).isEmpty = false from rfl),
          (show ("appstate_" ++ toString (0 : Nat)) = "appstate_0" from rfl)]
  have hR0 : ¬ (R ≤ 0) := by omega
  have hR1 : ¬ (R ≤ 1) := by omega
  have hch : ¬ (listChallengeDetected (twoStrategyDoc t₁ t₂).signals
      (twoStrategyDoc t₁ t₂).loadedUrl = true) := fun h => Bool.noConfusion h
  constructor
  · simp [runListTask, initState, hld, hap, hR0, hR1, hch, emitLoop, pushRecord, setAdd,
          Candidate.toRecord]
  · simp [runListTask, initState, hld, hap, hR0, hR1, hch, emitLoop, pushRecord, setAdd,
          Candidate.toRecord]

/-- Witness for the amended C3 at concrete titles and quota. -/
theorem strategy_order_amended_witness :
    ("Barista" : String) ≠ "" ∧ ("Sous Chef" : String) ≠ "" ∧ 2 ≤ 6
    ∧ ((runListTask 6 (twoStrategyDoc "Barista" "Sous Chef") {} initState).state.emitted.map
        (fun r => (r.extractionMethod, r.title))
      = [(some "json-ld", Json.str "Barista"), (some "app-state", Json.str "Sous Chef")]) :=
  ⟨by decide, by decide, by decide,
   (strategy_order_amended "Barista" "Sous Chef" 6 (by decide) (by decide) (by decide)).1⟩

/-- The LIST document of the C7 counterexample: a JSON-LD job posting
whose title has only 2 characters. -/
def shortTitleDoc : ListDoc :=
  { jsonLdPayloads := [Json.obj [("@type", Json.str "JobPosting"), ("title", Json.str "ab")]] }

/-- C7 counterexample: the structured-data path emits a record whose title
has length 2 — the claimed minimal-validity check (title length strictly
greater than 3) is not applied on that emission path. -/
theorem minimal_validity_counterexample :
    ((runListTask 10 shortTitleDoc {} initState).state.emitted.map JobRecord.title
      = [Json.str "ab"])
    ∧ (runListTask 10 shortTitleDoc {} initState).state.jobsCollected = 1
    ∧ ¬ (3 < ("ab" : String).length) :=
  ⟨rfl, rfl, by decide⟩

theorem isString_exists : ∀ {j : Json}, j.isString = true → ∃ t : String, j = Json.str t
  | .str t, _ => ⟨t, rfl⟩
  | .null, h => by simp [Json.isString] at h
  | .bool _, h => by simp [Json.isString] at h
  | .num _, h => by simp [Json.isString] at h
  | .arr _, h => by simp [Json.isString] at h
  | .obj _, h => by simp [Json.isString] at h

theorem truthy_str_ne {t : String} (h : (Json.str t).truthy = true) : t ≠ "" :=
  fun h0 => absurd (h0 ▸ h) (by decide)

mutual

theorem extractJobs_title_truthy :
    ∀ (j : Json) (c : Candidate), c ∈ extractJobsFromData j → c.title.truthy = true
  | .null, c => fun hc => by simp [extractJobsFromData] at hc
  | .bool _, c => fun hc => by simp [extractJobsFromData] at hc
  | .num _, c => fun hc => by simp [extractJobsFromData] at hc
  | .str _, c => fun hc => by simp [extractJobsFromData] at hc
  | .arr xs, c => fun hc =>
    extractJobsList_title_truthy xs c (by rwa [extractJobsFromData] at hc)
  | .obj fs, c => fun hc => by
    rw [extractJobsFromData] at hc
    split at hc
    · simp only at hc
      split at hc
      · next ht =>
        have hc' := List.mem_singleton.mp hc
        subst hc'
        exact ht
      · simp at hc
    · exact extractJobsFields_title_truthy fs c hc

theorem extractJobsList_title_truthy :
    ∀ (xs : List Json) (c : Candidate), c ∈ extractJobsFromDataList xs → c.title.truthy = true
  | [], c => fun hc => by simp [extractJobsFromDataList] at hc
  | x :: xs, c => fun hc => by
    rw [extractJobsFromDataList] at hc
    rcases List.mem_append.mp hc with h | h
    · exact extractJobs_title_truthy x c h
    · exact extractJobsList_title_truthy xs c h

theorem extractJobsFields_title_truthy :
    ∀ (fs : List (String × Json)) (c : Candidate),
      c ∈ extractJobsFromDataFields fs → c.title.truthy = true
  | [], c => fun hc => by simp [extractJobsFromDataFields] at hc
  | (_, v) :: fs, c => fun hc => by
    rw [extractJobsFromDataFields] at hc
    rcases List.mem_append.mp hc with h | h
    · exact extractJobs_title_truthy v c h
    · exact extractJobsFields_title_truthy fs c h

end

mutual

theorem findJobs_title_str :
    ∀ (j : Json) (c : Candidate), c ∈ findJobs j → ∃ t : String, c.title = Json.str t ∧ t ≠ ""
  | .null, c => fun hc => by simp [findJobs] at hc
  | .bool _, c => fun hc => by simp [findJobs] at hc
  | .num _, c => fun hc => by simp [findJobs] at hc
  | .str _, c => fun hc => by simp [findJobs] at hc
  | .arr xs, c => fun hc =>
    findJobsInList_title_str xs c (by rwa [findJobs] at hc)
  | .obj fs, c => fun hc => by
    rw [findJobs] at hc
    rcases List.mem_append.mp hc with h | h
    · split at h
      · next hlook =>
        have hc' := List.mem_singleton.mp h
        subst hc'
        simp only [looksLikeJobFields, Bool.and_eq_true] at hlook
        obtain ⟨⟨hta, _⟩, hts⟩ := hlook
        obtain ⟨t, ht⟩ := isString_exists hts
        refine ⟨t, ?_, truthy_str_ne (ht ▸ hta)⟩
        simp [mkAppStateJob, ht]
      · simp at h
    · exact findJobsInFields_title_str fs c h

theorem findJobsInList_title_str :
    ∀ (xs : List Json) (c : Candidate),
      c ∈ findJobsInList xs → ∃ t : String, c.title = Json.str t ∧ t ≠ ""
  | [], c => fun hc => by simp [findJobsInList] at hc
  | x :: xs, c => fun hc => by
    rw [findJobsInList] at hc
    rcases List.mem_append.mp hc with h | h
    · exact findJobs_title_str x c h
    · exact findJobsInList_title_str xs c h

theorem findJobsInFields_title_str :
    ∀ (fs : List (String × Json)) (c : Candidate),
      c ∈ findJobsInFields fs → ∃ t : String, c.title = Json.str t ∧ t ≠ ""
  | [], c => fun hc => by simp [findJobsInFields] at hc
  | (_, v) :: fs, c => fun hc => by
    rw [findJobsInFields] at hc
    rcases List.mem_append.mp hc with h | h
    · exact findJobs_title_str v c h
    · exact findJobsInFields_title_str fs c h

end

theorem textLoop_title_len (ids : Nat → String) :
    ∀ (ms : List TextMatch) (acc : List Candidate) (c : Candidate), c ∈ textLoop ids ms acc →
      c ∈ acc ∨ ∃ t : String, c.title = Json.str t ∧ 3 < t.length ∧ t.length < 100 := by
  intro ms
  induction ms with
  | nil =>
    intro acc c hc
    exact Or.inl (by simpa [textLoop] using hc)
  | cons m rest ih =>
    intro acc c hc
    rw [textLoop] at hc
    split at hc
    · cases hm : m.title with
      | none =>
        simp only [hm] at hc
        exact ih acc c hc
      | some t =>
        simp only [hm] at hc
        split at hc
        · next hcond =>
          simp only [Bool.and_eq_true, decide_eq_true_eq] at hcond
          rcases ih _ c hc with h | h
          · rw [List.concat_eq_append] at h
            rcases List.mem_append.mp h with h' | h'
            · exact Or.inl h'
            · have h'' := List.mem_singleton.mp h'
              subst h''
              refine Or.inr ⟨strTrim t, ?_, hcond.1, hcond.2⟩
              simp [mkTextJob, hm]
          · exact Or.inr h
        · exact ih acc c hc
    · exact Or.inl hc

theorem collectTextJobs_title_len (ids : Nat → String) (pats : List (List TextMatch)) :
    ∀ c ∈ collectTextJobs ids pats,
      ∃ t : String, c.title = Json.str t ∧ 3 < t.length ∧ t.length < 100 := by
  rw [collectTextJobs]
  suffices h : ∀ (ps : List (List TextMatch)) (acc : List Candidate),
      (∀ c ∈ acc, ∃ t : String, c.title = Json.str t ∧ 3 < t.length ∧ t.length < 100) →
      ∀ c ∈ ps.foldl (fun acc ms => textLoop ids ms acc) acc,
        ∃ t : String, c.title = Json.str t ∧ 3 < t.length ∧ t.length < 100 by
    exact h pats [] (by simp)
  intro ps
  induction ps with
  | nil => intro acc hacc c hc; exact hacc c (by simpa using hc)
  | cons p ps ih =>
    intro acc hacc c hc
    rw [List.foldl_cons] at hc
    refine ih _ ?_ c hc
    intro c' hc'
    rcases textLoop_title_len ids p acc c' hc' with h | h
    · exact hacc c' h
    · exact h

theorem detail_push_title_len (R : Nat) (d : DetailDoc) (seed : SeedJob) (s : ScrapeState) :
    ∀ r ∈ (runDetailTask R d seed s).emitted,
      r ∈ s.emitted ∨ ∃ t : String, r.title = Json.str t ∧ 3 < t.length := by
  intro r hr
  rw [runDetailTask] at hr
  split at hr
  · exact Or.inl hr
  · split at hr
    · exact Or.inl hr
    · split at hr
      · exact Or.inl hr
      · revert hr
        have hgen : ∀ ft fc : String,
            r ∈ (if 3 < ft.length then pushRecord s (detailRecord d seed ft fc) else s).emitted →
            r ∈ s.emitted ∨ ∃ t : String, r.title = Json.str t ∧ 3 < t.length := by
          intro ft fc hr
          split at hr
          · next hlen =>
            simp only [pushRecord, List.mem_append, List.mem_singleton] at hr
            rcases hr with h | h
            · exact Or.inl h
            · subst h
              exact Or.inr ⟨ft, rfl, hlen⟩
          · exact Or.inl hr
        exact hgen _ _

theorem domEnqueue_title_len (s : ScrapeState) (R : Nat) (cards : List DomCard) :
    ∀ sj ∈ domEnqueue s R cards, 3 < sj.title.length := by
  intro sj hsj
  rw [domEnqueue] at hsj
  split at hsj
  · obtain ⟨c, _, hfc⟩ := List.mem_filterMap.mp hsj
    split at hfc
    · cases hfc
    · split at hfc
      · split at hfc
        · next hcond =>
          simp only [Bool.and_eq_true, decide_eq_true_eq] at hcond
          cases hfc
          exact hcond.1
        · cases hfc
      · cases hfc
  · simp at hsj

/-- C7 amended: the minimal-validity check differs by path. Free-text
candidates carry a title of length strictly between 3 and 100, DETAIL
records are pushed only with a title of length above 3, and DOM candidates
are enqueued only with a title of length above 3 — but structured-data and
embedded-state candidates are emitted with only a truthiness (non-empty)
check on the title, so titles of length 1-3 are emitted from those two
strategies (per the counterexample). -/
theorem minimal_validity_amended :
    (∀ (j : Json) (c : Candidate), c ∈ extractJobsFromData j → c.title.truthy = true)
    ∧ (∀ (j : Json) (c : Candidate), c ∈ findJobs j →
        ∃ t : String, c.title = Json.str t ∧ t ≠ "")
    ∧ (∀ (ids : Nat → String) (pats : List (List TextMatch)),
        ∀ c ∈ collectTextJobs ids pats,
          ∃ t : String, c.title = Json.str t ∧ 3 < t.length ∧ t.length < 100)
    ∧ (∀ (R : Nat) (d : DetailDoc) (seed : SeedJob) (s : ScrapeState),
        ∀ r ∈ (runDetailTask R d seed s).emitted,
          r ∈ s.emitted ∨ ∃ t : String, r.title = Json.str t ∧ 3 < t.length)
    ∧ (∀ (s : ScrapeState) (R : Nat) (cards : List DomCard),
        ∀ sj ∈ domEnqueue s R cards, 3 < sj.title.length) :=
  ⟨extractJobs_title_truthy, findJobs_title_str, collectTextJobs_title_len,
   detail_push_title_len, domEnqueue_title_len⟩

/-- Witness for the amended C7 at concrete inputs: the short-titled JSON-LD
candidate passes its (truthiness-only) check, and a DOM card enqueued with
a real title satisfies the strict length bound. -/
theorem minimal_validity_amended_witness :
    (mkJsonLdJob [("@type", Json.str "JobPosting"), ("title", Json.str "ab")]).title.truthy = true
    ∧ 3 < ({ title := "Night Shift Porter", company := "Not specified"
             location := "Not specified", datePosted := "Not specified"
             id := "c1" } : SeedJob).title.length :=
  ⟨minimal_validity_amended.1
      (Json.obj [("@type", Json.str "JobPosting"), ("title", Json.str "ab")])
      (mkJsonLdJob [("@type", Json.str "JobPosting"), ("title", Json.str "ab")])
      (List.mem_singleton.mpr rfl),
   minimal_validity_amended.2.2.2.2 initState 5
      [{ id := "c1", title := some "Night Shift Porter", detailLink := some "url" }]
      { title := "Night Shift Porter", company := "Not specified"
        location := "Not specified", datePosted := "Not specified", id := "c1" }
      (by decide)⟩

end GoogleJobsScraper
